import Mathlib

/-!
Verification of the model-building and solution-extraction logic of the
DroneDelivery repository (`dronedelivery/solve_product_path/solve_product_path.py`).

The MILP utility layer (`dronedelivery.utils.mip_utils`: `IntegerVariable`,
`LinearExpression`, `EqualityConstraint`, `LE_InequalityConstraint`, `Model`) and
the problem objects (`Product`, `Customer`, `Hub`, `Environment`) are repository
code that is not part of the analysed sources; they are modelled from the design
document, as flagged on each such definition.
-/

namespace DroneDelivery

/-- Modelled from the spec: `Product` (from `dronedelivery.problem.objects`, not in
the analysed sources) is "an identifier for a commodity type" with stable
identity/equality; modelled as a numeric identifier. -/
abbrev Product := Nat

/-- Modelled from the spec: locations are opaque values handed to the Environment
distance oracle; modelled as numeric identifiers. -/
abbrev Location := Nat

/-- Modelled from the spec: a `Customer` "has a `location` and a `demand` mapping
from Product to a non-negative integer quantity (products absent from the mapping
have implicit demand 0)". The Python `dict` is modelled as an association list;
customers are immutable value objects with structural equality. -/
structure Customer where
  location : Location
  demand : List (Product × Int)
  deriving DecidableEq, Repr

/-- Membership test `product in customer.demand` on the demand mapping. -/
def Customer.demandMem (c : Customer) (p : Product) : Bool :=
  (c.demand.lookup p).isSome

/-- Lookup `customer.demand[product]`, total with the spec's implicit default 0
for absent products. Under a `demandMem` guard this agrees with the Python
partial lookup. -/
def Customer.demandVal (c : Customer) (p : Product) : Int :=
  (c.demand.lookup p).getD 0

/-- Modelled from the spec: a `Hub` "has a `location` and exposes
`available_items(product) → non-negative integer`" (the Hub class is not in the
analysed sources). The stock is modelled as an association list; hubs are
immutable value objects with structural equality. -/
structure Hub where
  location : Location
  stock : List (Product × Int)
  deriving DecidableEq, Repr

/-- Modelled from the spec: `hub.get_available_items(product)`, a total function
returning the stocked quantity. -/
def Hub.get_available_items (h : Hub) (p : Product) : Int :=
  (h.stock.lookup p).getD 0

/-- Modelled from the spec: the `Environment` collaborator exposes
`get_distance(locationA, locationB) → non-negative number`. -/
structure Environment where
  get_distance : Location → Location → Int

/-- Modelled from the spec and the four `IntegerVariable` subclasses of
`solve_product_path.py` (`FlightsCustomerHub`, `ProductsMoveCustomerHub`,
`FlightsHubHub`, `ProductsMoveHubHub`): a decision variable is "a non-negative
integer-valued unknown, belonging to one of four families, tagged with the index
tuple that produced it", with "a lower bound (default 0) and an optional finite
upper bound". Each constructor carries the bounds plus exactly the index payload
the Python code stores in the variable's `data` dictionary. The diagnostic
`name` string is omitted: per the spec it "must not affect solving". -/
inductive IntegerVariable where
  | FlightsCustomerHub (lower_bound : Int) (upper_bound : Option Int)
      (customer : Customer) (hub : Hub)
  | ProductsMoveCustomerHub (lower_bound : Int) (upper_bound : Option Int)
      (customer : Customer) (hub : Hub) (product : Product)
  | FlightsHubHub (lower_bound : Int) (upper_bound : Option Int)
      (hub1 hub2 : Hub)
  | ProductsMoveHubHub (lower_bound : Int) (upper_bound : Option Int)
      (hub1 hub2 : Hub) (product : Product)
  deriving DecidableEq, Repr

/-- Lower bound of a decision variable (the `lower_bound` attribute of the
`IntegerVariable` base class). -/
def IntegerVariable.lower_bound : IntegerVariable → Int
  | .FlightsCustomerHub lb _ _ _ => lb
  | .ProductsMoveCustomerHub lb _ _ _ _ => lb
  | .FlightsHubHub lb _ _ _ => lb
  | .ProductsMoveHubHub lb _ _ _ _ => lb

/-- Upper bound of a decision variable (the optional `upper_bound` attribute of
the `IntegerVariable` base class; `none` when the constructor was not given
one). -/
def IntegerVariable.upper_bound : IntegerVariable → Option Int
  | .FlightsCustomerHub _ ub _ _ => ub
  | .ProductsMoveCustomerHub _ ub _ _ _ => ub
  | .FlightsHubHub _ ub _ _ => ub
  | .ProductsMoveHubHub _ ub _ _ _ => ub

/-- Modelled from the spec: the Linear Algebra Layer's `LinearExpression`
"represents a weighted sum of decision variables and supports
addition/subtraction/scaling". Modelled as the ordered list of
(variable, coefficient) terms; `LinearExpression()` is the empty list. -/
structure LinearExpression where
  terms : List (IntegerVariable × Int)
  deriving DecidableEq, Repr

/-- Modelled from the spec: `LinearExpression.add_variable(variable, coefficient)`
appends one weighted term (the Python default coefficient, used when the call
site omits it, is 1). -/
def LinearExpression.add_variable (e : LinearExpression) (v : IntegerVariable)
    (coefficient : Int) : LinearExpression :=
  ⟨e.terms ++ [(v, coefficient)]⟩

/-- Modelled from the spec: subtraction of linear expressions (`le_1 - le_2`),
appending the negated terms of the subtrahend. -/
def LinearExpression.sub (a b : LinearExpression) : LinearExpression :=
  ⟨a.terms ++ b.terms.map (fun t => (t.1, -t.2))⟩

/-- Value of a linear expression under a variable assignment. -/
def LinearExpression.eval (e : LinearExpression) (x : IntegerVariable → Int) : Int :=
  (e.terms.map (fun t => t.2 * x t.1)).sum

/-- Modelled from the spec: the Linear Algebra Layer "represents equality and
upper-bound inequality constraints (`lhs == rhs`, `lhs ≤ rhs`)", named
`EqualityConstraint` and `LE_InequalityConstraint` as in the imports of
`solve_product_path.py`. -/
inductive Constraint where
  | EqualityConstraint (lhs : LinearExpression) (rhs : Int)
  | LE_InequalityConstraint (lhs : LinearExpression) (rhs : Int)
  deriving DecidableEq, Repr

/-- A variable assignment satisfies a constraint. -/
def Constraint.satisfied (c : Constraint) (x : IntegerVariable → Int) : Prop :=
  match c with
  | .EqualityConstraint lhs rhs => lhs.eval x = rhs
  | .LE_InequalityConstraint lhs rhs => lhs.eval x ≤ rhs

instance (c : Constraint) (x : IntegerVariable → Int) : Decidable (c.satisfied x) :=
  match c with
  | .EqualityConstraint lhs rhs => inferInstanceAs (Decidable (lhs.eval x = rhs))
  | .LE_InequalityConstraint lhs rhs => inferInstanceAs (Decidable (lhs.eval x ≤ rhs))

/-- Modelled from the spec: the `Model` container aggregates "the variable set,
objective expression, constraint list" (`dronedelivery.utils.mip_utils.model`). -/
structure Model where
  decision_variables : List IntegerVariable
  objective : LinearExpression
  constraints : List Constraint
  deriving DecidableEq, Repr

/-- Origin/destination of a `Trip`. The Python `Trip` fields hold the customer or
hub object taken from the variable's `data` dictionary (the `str` annotations are
not enforced); modelled as a tagged union. -/
inductive Place where
  | customer (c : Customer)
  | hub (h : Hub)
  deriving DecidableEq, Repr

/-- The `Trip` dataclass of `solve_product_path.py`. -/
structure Trip where
  origin : Place
  destination : Place
  product_type : Product
  product_quantity : Int
  deriving DecidableEq, Repr

/-- The dictionary returned by `SolveProductTrips._get_trips`, with its keys
`"hub_to_customer"` and `"hub_to_hub"`. -/
structure TripsResult where
  hub_to_customer : List Trip
  hub_to_hub : List Trip
  deriving DecidableEq, Repr

/-- The pair iteration `itertools.product(l1, l2)`: first component outermost. -/
def product2 (as : List α) (bs : List β) : List (α × β) :=
  as.flatMap (fun a => bs.map (fun b => (a, b)))

/-- The triple iteration `itertools.product(l1, l2, l3)`. -/
def product3 (as : List α) (bs : List β) (cs : List γ) : List (α × β × γ) :=
  as.flatMap (fun a => bs.flatMap (fun b => cs.map (fun c => (a, b, c))))

/-- The `FlightsCustomerHub` variable built by
`SolveProductTrips._get_n_flights_variables` for one `(customer, hub)` key:
`lower_bound=0`, no upper bound, data `{customer, hub}`. -/
def mkFlightsCustomerHub (customer : Customer) (hub : Hub) : IntegerVariable :=
  .FlightsCustomerHub 0 none customer hub

/-- The `ProductsMoveCustomerHub` variable built by
`SolveProductTrips._get_n_products_move_variables` for one
`(customer, hub, product)` key: `lower_bound=0`,
`upper_bound=customer.demand[product] if product in customer.demand else 0`,
data `{customer, hub, product}`. -/
def mkProductsMoveCustomerHub (customer : Customer) (hub : Hub) (product : Product) :
    IntegerVariable :=
  .ProductsMoveCustomerHub 0
    (some (if customer.demandMem product then customer.demandVal product else 0))
    customer hub product

/-- The `FlightsHubHub` variable built by
`SolveProductTrips._get_n_flights_hub_to_hub` for one `(hub1, hub2)` key:
`lower_bound=0`, no upper bound, data `{hub1, hub2}`. -/
def mkFlightsHubHub (hub1 hub2 : Hub) : IntegerVariable :=
  .FlightsHubHub 0 none hub1 hub2

/-- The `ProductsMoveHubHub` variable built by
`SolveProductTrips._get_n_products_move_hub_to_hub` for one
`(hub1, hub2, product)` key: `lower_bound=0`, no upper bound, data
`{hub1, hub2, product}`. -/
def mkProductsMoveHubHub (hub1 hub2 : Hub) (product : Product) : IntegerVariable :=
  .ProductsMoveHubHub 0 none hub1 hub2 product

/-- `SolveProductTrips._get_n_flights_variables`: the dict comprehension over
`itertools.product(customers, hubs)`, in insertion order. The Python dictionary
maps each key tuple to the variable built from that tuple, so in-domain lookups
are embedded as direct construction via `mkFlightsCustomerHub`; this list is the
dictionary's `.values()`. -/
def _get_n_flights_variables (customers : List Customer) (hubs : List Hub) :
    List IntegerVariable :=
  (product2 customers hubs).map (fun ch => mkFlightsCustomerHub ch.1 ch.2)

/-- `SolveProductTrips._get_n_products_move_variables`: the dict comprehension
over `itertools.product(customers, hubs, products)`, in insertion order. -/
def _get_n_products_move_variables (customers : List Customer) (hubs : List Hub)
    (products : List Product) : List IntegerVariable :=
  (product3 customers hubs products).map
    (fun t => mkProductsMoveCustomerHub t.1 t.2.1 t.2.2)

/-- `SolveProductTrips._get_n_flights_hub_to_hub`: the dict comprehension over
`itertools.product(hubs, hubs)` guarded by `hub1 != hub2`. -/
def _get_n_flights_hub_to_hub (hubs : List Hub) : List IntegerVariable :=
  ((product2 hubs hubs).filter (fun hh => hh.1 ≠ hh.2)).map
    (fun hh => mkFlightsHubHub hh.1 hh.2)

/-- `SolveProductTrips._get_n_products_move_hub_to_hub`: the dict comprehension
over `itertools.product(hubs, hubs, products)` guarded by `hub1 != hub2`. -/
def _get_n_products_move_hub_to_hub (hubs : List Hub) (products : List Product) :
    List IntegerVariable :=
  ((product3 hubs hubs products).filter (fun t => t.1 ≠ t.2.1)).map
    (fun t => mkProductsMoveHubHub t.1 t.2.1 t.2.2)

/-- `SolveProductTrips.get_variables`: the concatenation of the four variable
catalogs' values, in the order the Python method concatenates the lists. -/
def get_variables (customers : List Customer) (hubs : List Hub)
    (products : List Product) : List IntegerVariable :=
  _get_n_flights_variables customers hubs
    ++ _get_n_products_move_variables customers hubs products
    ++ _get_n_flights_hub_to_hub hubs
    ++ _get_n_products_move_hub_to_hub hubs products

/-- `SolveProductTrips.get_objective`: starts from an empty `LinearExpression`
and adds one term per `(customer, hub)` pair with coefficient
`environment.get_distance(hub.location, customer.location)`, then one term per
ordered pair `(hub1, hub2)` with `hub1 != hub2` and coefficient
`environment.get_distance(hub1.location, hub2.location)`. -/
def get_objective (customers : List Customer) (hubs : List Hub)
    (environment : Environment) : LinearExpression :=
  (product2 hubs hubs).foldl
    (fun le hh =>
      if hh.1 ≠ hh.2 then
        le.add_variable (mkFlightsHubHub hh.1 hh.2)
          (environment.get_distance hh.1.location hh.2.location)
      else le)
    ((product2 customers hubs).foldl
      (fun le ch => le.add_variable (mkFlightsCustomerHub ch.1 ch.2)
        (environment.get_distance ch.2.location ch.1.location)) ⟨[]⟩)

/-- `SolveProductTrips._get_demand_constraints`: for each `(customer, product)`
pair with `product in customer.demand`, an `EqualityConstraint` whose left side
sums the `ProductsMoveCustomerHub` variables over all hubs (default coefficient
1) and whose right side is `customer.demand[product]`. -/
def _get_demand_constraints (customers : List Customer) (products : List Product)
    (hubs : List Hub) : List Constraint :=
  (product2 customers products).foldl
    (fun constraints cp =>
      if cp.1.demandMem cp.2 then
        let lhs := hubs.foldl
          (fun lhs hub => lhs.add_variable (mkProductsMoveCustomerHub cp.1 hub cp.2) 1)
          ⟨[]⟩
        constraints ++ [Constraint.EqualityConstraint lhs (cp.1.demandVal cp.2)]
      else constraints) []

/-- `SolveProductTrips._get_supply_constraints`: for each `(hub, product)` pair,
`le_1` sums the `ProductsMoveCustomerHub` variables over all customers, `le_2`
adds per sibling hub the inbound `ProductsMoveHubHub` variable with coefficient 1
and the outbound one with coefficient -1, and the constraint is
`le_1 - le_2 ≤ hub.get_available_items(product)`. -/
def _get_supply_constraints (customers : List Customer) (products : List Product)
    (hubs : List Hub) : List Constraint :=
  (product2 hubs products).foldl
    (fun constraints hp =>
      let le_1 := customers.foldl
        (fun (le : LinearExpression) c =>
          le.add_variable (mkProductsMoveCustomerHub c hp.1 hp.2) 1) ⟨[]⟩
      let le_2 := hubs.foldl
        (fun (le : LinearExpression) h2 =>
          if h2 ≠ hp.1 then
            (le.add_variable (mkProductsMoveHubHub h2 hp.1 hp.2) 1).add_variable
              (mkProductsMoveHubHub hp.1 h2 hp.2) (-1)
          else le) ⟨[]⟩
      constraints ++ [Constraint.LE_InequalityConstraint (le_1.sub le_2)
        (hp.1.get_available_items hp.2)]) []

/-- `SolveProductTrips._get_trips_constraints`: for each `(customer, hub)` pair,
`le_1` sums the `ProductsMoveCustomerHub` variables over all products, `le_2` is
`max_flight_capacity` times the `FlightsCustomerHub` variable, and the constraint
is `le_1 - le_2 ≤ 0`. -/
def _get_trips_constraints (customers : List Customer) (products : List Product)
    (hubs : List Hub) (max_flight_capacity : Int) : List Constraint :=
  (product2 customers hubs).foldl
    (fun constraints ch =>
      let le_1 := products.foldl
        (fun (le : LinearExpression) p =>
          le.add_variable (mkProductsMoveCustomerHub ch.1 ch.2 p) 1) ⟨[]⟩
      let le_2 := LinearExpression.add_variable ⟨[]⟩
        (mkFlightsCustomerHub ch.1 ch.2) max_flight_capacity
      constraints ++ [Constraint.LE_InequalityConstraint (le_1.sub le_2) 0]) []

/-- `SolveProductTrips._get_trips_hub_to_hub_constraints`: for each ordered pair
`(hub1, hub2)` with `hub1 != hub2`, `le_1` sums the `ProductsMoveHubHub`
variables over all products, `le_2` is `max_flight_capacity` times the
`FlightsHubHub` variable, and the constraint is `le_1 - le_2 ≤ 0`. -/
def _get_trips_hub_to_hub_constraints (products : List Product) (hubs : List Hub)
    (max_flight_capacity : Int) : List Constraint :=
  (product2 hubs hubs).foldl
    (fun constraints hh =>
      if hh.1 ≠ hh.2 then
        let le_1 := products.foldl
          (fun (le : LinearExpression) p =>
            le.add_variable (mkProductsMoveHubHub hh.1 hh.2 p) 1) ⟨[]⟩
        let le_2 := LinearExpression.add_variable ⟨[]⟩
          (mkFlightsHubHub hh.1 hh.2) max_flight_capacity
        constraints ++ [Constraint.LE_InequalityConstraint (le_1.sub le_2) 0]
      else constraints) []

/-- `SolveProductTrips.get_constraints`: the concatenation of the four
constraint families, in the order the Python method concatenates the lists. -/
def get_constraints (customers : List Customer) (hubs : List Hub)
    (products : List Product) (max_flight_capacity : Int) : List Constraint :=
  _get_demand_constraints customers products hubs
    ++ _get_supply_constraints customers products hubs
    ++ _get_trips_constraints customers products hubs max_flight_capacity
    ++ _get_trips_hub_to_hub_constraints products hubs max_flight_capacity

/-- The `Model` built by `SolveProductTrips.__init__`: variables from
`get_variables`, objective from `get_objective`, constraints from
`get_constraints`. -/
def SolveProductTrips.model (customers : List Customer) (hubs : List Hub)
    (products : List Product) (max_flight_capacity : Int)
    (environment : Environment) : Model :=
  { decision_variables := get_variables customers hubs products
    objective := get_objective customers hubs environment
    constraints := get_constraints customers hubs products max_flight_capacity }

/-- The body of the `for variable, value in solution.items()` loop of
`SolveProductTrips._get_trips`: appends a `Trip` to the hub→customer list when
the variable is a non-zero `ProductsMoveCustomerHub` and to the hub→hub list
when it is a non-zero `ProductsMoveHubHub`, fields read from the variable's
stored `data` indices and the value. -/
def _get_trips_step (trips : TripsResult) (vv : IntegerVariable × Int) : TripsResult :=
  let trips :=
    match vv.1 with
    | .ProductsMoveCustomerHub _ _ customer hub product =>
      if vv.2 ≠ 0 then
        { trips with hub_to_customer := trips.hub_to_customer ++
            [{ origin := Place.hub hub, destination := Place.customer customer,
               product_type := product, product_quantity := vv.2 }] }
      else trips
    | _ => trips
  match vv.1 with
  | .ProductsMoveHubHub _ _ hub1 hub2 product =>
    if vv.2 ≠ 0 then
      { trips with hub_to_hub := trips.hub_to_hub ++
          [{ origin := Place.hub hub1, destination := Place.hub hub2,
             product_type := product, product_quantity := vv.2 }] }
    else trips
  | _ => trips

/-- `SolveProductTrips._get_trips`: iterates the solver's variable→value mapping
(`solution.items()`, modelled as an ordered association list), starting from two
empty trip lists. -/
def _get_trips (solution : List (IntegerVariable × Int)) : TripsResult :=
  solution.foldl _get_trips_step { hub_to_customer := [], hub_to_hub := [] }

/-! Specification-side forms of the constraint left sides and the objective, as
stated in the design document; the theorems below equate them with the loop
implementations above. -/

/-- Spec form of the demand-satisfaction left side: the sum over all hubs of
`ProductsMoveCustomerHub(customer, hub, product)`, coefficient 1. -/
def demandLhs (customer : Customer) (product : Product) (hubs : List Hub) :
    LinearExpression :=
  ⟨hubs.map (fun h => (mkProductsMoveCustomerHub customer h product, 1))⟩

/-- Spec form of the hub-supply-balance left side: customer shipments with
coefficient 1, then per sibling hub the inbound hub-to-hub variable with
coefficient -1 and the outbound one with coefficient 1 (the subtraction of the
net-inflow expression). -/
def supplyLhs (customers : List Customer) (hubs : List Hub) (h : Hub)
    (p : Product) : LinearExpression :=
  ⟨customers.map (fun c => (mkProductsMoveCustomerHub c h p, 1))
    ++ hubs.flatMap (fun h2 =>
        if h2 ≠ h then
          [(mkProductsMoveHubHub h2 h p, -1), (mkProductsMoveHubHub h h2 p, 1)]
        else [])⟩

/-- Spec form of the customer-trip-capacity left side: product volume minus
`max_flight_capacity` times the flight-count variable. -/
def customerTripLhs (products : List Product) (c : Customer) (h : Hub)
    (max_flight_capacity : Int) : LinearExpression :=
  ⟨products.map (fun p => (mkProductsMoveCustomerHub c h p, 1))
    ++ [(mkFlightsCustomerHub c h, -max_flight_capacity)]⟩

/-- Spec form of the hub-to-hub-trip-capacity left side. -/
def hubTripLhs (products : List Product) (h1 h2 : Hub)
    (max_flight_capacity : Int) : LinearExpression :=
  ⟨products.map (fun p => (mkProductsMoveHubHub h1 h2 p, 1))
    ++ [(mkFlightsHubHub h1 h2, -max_flight_capacity)]⟩

/-- Spec form of the objective: distance-weighted customer flights, then
distance-weighted hub-to-hub flights over ordered distinct pairs. -/
def objectiveSpec (customers : List Customer) (hubs : List Hub)
    (environment : Environment) : LinearExpression :=
  ⟨(product2 customers hubs).map (fun ch =>
      (mkFlightsCustomerHub ch.1 ch.2,
       environment.get_distance ch.2.location ch.1.location))
    ++ ((product2 hubs hubs).filter (fun hh => hh.1 ≠ hh.2)).map (fun hh =>
      (mkFlightsHubHub hh.1 hh.2,
       environment.get_distance hh.1.location hh.2.location))⟩

/-- Spec form of a hub→customer trip extracted from one solution entry: `some`
exactly for non-zero `ProductsMoveCustomerHub` variables. -/
def tripsCustomerOf (vv : IntegerVariable × Int) : Option Trip :=
  match vv.1 with
  | .ProductsMoveCustomerHub _ _ customer hub product =>
    if vv.2 ≠ 0 then
      some { origin := Place.hub hub, destination := Place.customer customer,
             product_type := product, product_quantity := vv.2 }
    else none
  | _ => none

/-- Spec form of a hub→hub trip extracted from one solution entry: `some`
exactly for non-zero `ProductsMoveHubHub` variables. -/
def tripsHubOf (vv : IntegerVariable × Int) : Option Trip :=
  match vv.1 with
  | .ProductsMoveHubHub _ _ hub1 hub2 product =>
    if vv.2 ≠ 0 then
      some { origin := Place.hub hub1, destination := Place.hub hub2,
             product_type := product, product_quantity := vv.2 }
    else none
  | _ => none

/-! Infrastructure lemmas relating the fold-style loops to their map/filter
forms, and list summation helpers. -/

theorem LinearExpression.eq_of_terms {a b : LinearExpression}
    (h : a.terms = b.terms) : a = b := by
  cases a; cases b; simpa using h

theorem foldl_add_terms {α : Type _} (L : List α)
    (f : LinearExpression → α → LinearExpression)
    (t : α → List (IntegerVariable × Int))
    (hf : ∀ e a, (f e a).terms = e.terms ++ t a) (e : LinearExpression) :
    (L.foldl f e).terms = e.terms ++ L.flatMap t := by
  induction L generalizing e with
  | nil => simp
  | cons a L ih => simp [List.foldl_cons, ih, hf, List.append_assoc]

theorem foldl_append_acc {α β : Type _} (L : List α) (f : List β → α → List β)
    (t : α → List β) (hf : ∀ acc a, f acc a = acc ++ t a) (init : List β) :
    L.foldl f init = init ++ L.flatMap t := by
  induction L generalizing init with
  | nil => simp
  | cons a L ih => simp [List.foldl_cons, ih, hf, List.append_assoc]

theorem flatMap_guard_singleton {α β : Type _} (L : List α) (g : α → Prop)
    [DecidablePred g] (f : α → β) :
    (L.flatMap fun a => if g a then [f a] else [])
      = (L.filter (fun a => g a)).map f := by
  induction L with
  | nil => rfl
  | cons a L ih => by_cases h : g a <;> simp [h, ih, List.filter_cons]

theorem flatMap_bguard_singleton {α β : Type _} (L : List α) (g : α → Bool)
    (f : α → β) :
    (L.flatMap fun a => if g a then [f a] else []) = (L.filter g).map f := by
  induction L with
  | nil => rfl
  | cons a L ih => cases h : g a <;> simp [h, ih, List.filter_cons]

theorem flatMap_ite_nil_singleton {α β : Type _} (L : List α) (g : α → Prop)
    [DecidablePred g] (f : α → β) :
    (L.flatMap fun a => if g a then [] else [f a])
      = (L.filter (fun a => ¬ g a)).map f := by
  induction L with
  | nil => rfl
  | cons a L ih => by_cases h : g a <;> simp [h, ih, List.filter_cons]

theorem flatMap_map_singleton {α β : Type _} (L : List α) (f : α → β) :
    (L.flatMap fun a => [f a]) = L.map f := by
  induction L with
  | nil => rfl
  | cons a L ih => simp [ih]

theorem mem_product2 {α β : Type _} {as : List α} {bs : List β} {a : α} {b : β} :
    (a, b) ∈ product2 as bs ↔ a ∈ as ∧ b ∈ bs := by
  simp [product2, List.mem_flatMap]

theorem sum_map_flatMap {α β : Type _} (L : List α) (f : α → List β)
    (g : β → Int) :
    ((L.flatMap f).map g).sum = (L.map (fun a => ((f a).map g).sum)).sum := by
  induction L with
  | nil => rfl
  | cons a L ih => simp [ih]

theorem sum_map_neg {α : Type _} (L : List α) (f : α → Int) :
    (L.map (fun a => -(f a))).sum = -((L.map f).sum) := by
  induction L with
  | nil => rfl
  | cons a L ih => simp [ih, neg_add, add_comm]

theorem sum_single_of_nodup {α : Type _} (l : List α) (g : α → Int) (a : α)
    (hnd : l.Nodup) (ha : a ∈ l) (hz : ∀ b ∈ l, b ≠ a → g b = 0) :
    (l.map g).sum = g a := by
  induction l with
  | nil => cases ha
  | cons x l ih =>
    rcases List.mem_cons.mp ha with rfl | hmem
    · have hzero : (l.map g).sum = 0 := by
        apply List.sum_eq_zero
        intro y hy
        rcases List.mem_map.mp hy with ⟨b, hb, rfl⟩
        refine hz b (List.mem_cons_of_mem _ hb) ?_
        rintro rfl
        exact (List.nodup_cons.mp hnd).1 hb
      simp [hzero]
    · have hx : g x = 0 := by
        refine hz x (List.mem_cons_self x l) ?_
        rintro rfl
        exact (List.nodup_cons.mp hnd).1 hmem
      have := ih (List.nodup_cons.mp hnd).2 hmem
        (fun b hb hne => hz b (List.mem_cons_of_mem _ hb) hne)
      simp [hx, this]

theorem sum_map_filter_filterMap {α β : Type _} (l : List α) (f : α → Option β)
    (q : β → Bool) (g : β → Int) :
    (((l.filterMap f).filter q).map g).sum
      = (l.map (fun a =>
          match f a with
          | some t => if q t then g t else 0
          | none => 0)).sum := by
  induction l with
  | nil => rfl
  | cons a l ih =>
    cases hf : f a with
    | none => simp [List.filterMap_cons, hf, ih]
    | some t =>
      cases hq : q t <;>
        simp [List.filterMap_cons, hf, List.filter_cons, hq, ih]

theorem LinearExpression.add_variable_terms (e : LinearExpression)
    (v : IntegerVariable) (c : Int) :
    (e.add_variable v c).terms = e.terms ++ [(v, c)] := rfl

theorem LinearExpression.sub_terms (a b : LinearExpression) :
    (a.sub b).terms = a.terms ++ b.terms.map (fun t => (t.1, -t.2)) := rfl

theorem demandLhs_fold (customer : Customer) (product : Product)
    (hubs : List Hub) :
    hubs.foldl (fun (lhs : LinearExpression) hub =>
        lhs.add_variable (mkProductsMoveCustomerHub customer hub product) 1) ⟨[]⟩
      = demandLhs customer product hubs := by
  apply LinearExpression.eq_of_terms
  rw [foldl_add_terms hubs
    (fun lhs hub => lhs.add_variable (mkProductsMoveCustomerHub customer hub product) 1)
    (fun hub => [(mkProductsMoveCustomerHub customer hub product, 1)])
    (fun e a => rfl) ⟨[]⟩]
  simp [demandLhs, flatMap_map_singleton]

theorem demand_constraints_eq (customers : List Customer)
    (products : List Product) (hubs : List Hub) :
    _get_demand_constraints customers products hubs
      = ((product2 customers products).filter
          (fun cp => cp.1.demandMem cp.2)).map
          (fun cp => Constraint.EqualityConstraint (demandLhs cp.1 cp.2 hubs)
            (cp.1.demandVal cp.2)) := by
  have h := foldl_append_acc (product2 customers products)
    (fun constraints cp =>
      if cp.1.demandMem cp.2 then
        constraints ++ [Constraint.EqualityConstraint
          (hubs.foldl (fun (lhs : LinearExpression) hub =>
            lhs.add_variable (mkProductsMoveCustomerHub cp.1 hub cp.2) 1) ⟨[]⟩)
          (cp.1.demandVal cp.2)]
      else constraints)
    (fun cp =>
      if cp.1.demandMem cp.2 then
        [Constraint.EqualityConstraint (demandLhs cp.1 cp.2 hubs)
          (cp.1.demandVal cp.2)]
      else [])
    (by intro acc cp; cases hm : cp.1.demandMem cp.2 <;>
      simp [hm, demandLhs_fold]) []
  simpa [_get_demand_constraints, flatMap_bguard_singleton] using h

theorem map_neg_guard (hubs : List Hub) (h : Hub) (p : Product) :
    ((hubs.flatMap fun h2 =>
        if h2 ≠ h then
          [(mkProductsMoveHubHub h2 h p, (1 : Int)),
           (mkProductsMoveHubHub h h2 p, -1)]
        else []).map (fun t => (t.1, -t.2)))
      = hubs.flatMap fun h2 =>
          if h2 ≠ h then
            [(mkProductsMoveHubHub h2 h p, (-1 : Int)),
             (mkProductsMoveHubHub h h2 p, 1)]
          else [] := by
  induction hubs with
  | nil => rfl
  | cons h2 hubs ih =>
    rw [List.flatMap_cons, List.flatMap_cons, List.map_append, ih]
    congr 1
    by_cases hh : h2 ≠ h <;> simp [hh]

theorem supplyLhs_fold (customers : List Customer) (hubs : List Hub) (h : Hub)
    (p : Product) :
    LinearExpression.sub
      (customers.foldl (fun (le : LinearExpression) c =>
        le.add_variable (mkProductsMoveCustomerHub c h p) 1) ⟨[]⟩)
      (hubs.foldl (fun (le : LinearExpression) h2 =>
        if h2 ≠ h then
          (le.add_variable (mkProductsMoveHubHub h2 h p) 1).add_variable
            (mkProductsMoveHubHub h h2 p) (-1)
        else le) ⟨[]⟩)
      = supplyLhs customers hubs h p := by
  apply LinearExpression.eq_of_terms
  rw [LinearExpression.sub_terms]
  rw [foldl_add_terms customers
    (fun le c => le.add_variable (mkProductsMoveCustomerHub c h p) 1)
    (fun c => [(mkProductsMoveCustomerHub c h p, 1)]) (fun e a => rfl) ⟨[]⟩]
  rw [foldl_add_terms hubs
    (fun le h2 =>
      if h2 ≠ h then
        (le.add_variable (mkProductsMoveHubHub h2 h p) 1).add_variable
          (mkProductsMoveHubHub h h2 p) (-1)
      else le)
    (fun h2 => if h2 ≠ h then
      [(mkProductsMoveHubHub h2 h p, 1), (mkProductsMoveHubHub h h2 p, -1)]
      else [])
    (by intro e a; by_cases hh : a ≠ h <;>
      simp [hh, LinearExpression.add_variable_terms]) ⟨[]⟩]
  simp only [List.nil_append]
  rw [map_neg_guard]
  simp [supplyLhs, flatMap_map_singleton]

theorem supply_constraints_eq (customers : List Customer)
    (products : List Product) (hubs : List Hub) :
    _get_supply_constraints customers products hubs
      = (product2 hubs products).map (fun hp => Constraint.LE_InequalityConstraint
          (supplyLhs customers hubs hp.1 hp.2) (hp.1.get_available_items hp.2)) := by
  have h := foldl_append_acc (product2 hubs products)
    (fun constraints hp =>
      constraints ++ [Constraint.LE_InequalityConstraint
        (LinearExpression.sub
          (customers.foldl (fun (le : LinearExpression) c =>
            le.add_variable (mkProductsMoveCustomerHub c hp.1 hp.2) 1) ⟨[]⟩)
          (hubs.foldl (fun (le : LinearExpression) h2 =>
            if h2 ≠ hp.1 then
              (le.add_variable (mkProductsMoveHubHub h2 hp.1 hp.2) 1).add_variable
                (mkProductsMoveHubHub hp.1 h2 hp.2) (-1)
            else le) ⟨[]⟩))
        (hp.1.get_available_items hp.2)])
    (fun hp => [Constraint.LE_InequalityConstraint
      (supplyLhs customers hubs hp.1 hp.2) (hp.1.get_available_items hp.2)])
    (by intro acc hp
        exact congrArg (fun e => acc ++ [Constraint.LE_InequalityConstraint e
          (hp.1.get_available_items hp.2)])
          (supplyLhs_fold customers hubs hp.1 hp.2)) []
  simpa [_get_supply_constraints, flatMap_map_singleton] using h

theorem customerTripLhs_fold (products : List Product) (c : Customer) (h : Hub)
    (max_flight_capacity : Int) :
    LinearExpression.sub
      (products.foldl (fun (le : LinearExpression) p =>
        le.add_variable (mkProductsMoveCustomerHub c h p) 1) ⟨[]⟩)
      (LinearExpression.add_variable ⟨[]⟩ (mkFlightsCustomerHub c h)
        max_flight_capacity)
      = customerTripLhs products c h max_flight_capacity := by
  apply LinearExpression.eq_of_terms
  rw [LinearExpression.sub_terms]
  rw [foldl_add_terms products
    (fun le p => le.add_variable (mkProductsMoveCustomerHub c h p) 1)
    (fun p => [(mkProductsMoveCustomerHub c h p, 1)]) (fun e a => rfl) ⟨[]⟩]
  simp [customerTripLhs, flatMap_map_singleton, LinearExpression.add_variable_terms]

theorem trips_constraints_eq (customers : List Customer)
    (products : List Product) (hubs : List Hub) (max_flight_capacity : Int) :
    _get_trips_constraints customers products hubs max_flight_capacity
      = (product2 customers hubs).map (fun ch => Constraint.LE_InequalityConstraint
          (customerTripLhs products ch.1 ch.2 max_flight_capacity) 0) := by
  have h := foldl_append_acc (product2 customers hubs)
    (fun constraints ch =>
      constraints ++ [Constraint.LE_InequalityConstraint
        (LinearExpression.sub
          (products.foldl (fun (le : LinearExpression) p =>
            le.add_variable (mkProductsMoveCustomerHub ch.1 ch.2 p) 1) ⟨[]⟩)
          (LinearExpression.add_variable ⟨[]⟩ (mkFlightsCustomerHub ch.1 ch.2)
            max_flight_capacity)) 0])
    (fun ch => [Constraint.LE_InequalityConstraint
      (customerTripLhs products ch.1 ch.2 max_flight_capacity) 0])
    (by intro acc ch
        exact congrArg (fun e => acc ++ [Constraint.LE_InequalityConstraint e 0])
          (customerTripLhs_fold products ch.1 ch.2 max_flight_capacity)) []
  simpa [_get_trips_constraints, flatMap_map_singleton] using h

theorem hubTripLhs_fold (products : List Product) (h1 h2 : Hub)
    (max_flight_capacity : Int) :
    LinearExpression.sub
      (products.foldl (fun (le : LinearExpression) p =>
        le.add_variable (mkProductsMoveHubHub h1 h2 p) 1) ⟨[]⟩)
      (LinearExpression.add_variable ⟨[]⟩ (mkFlightsHubHub h1 h2)
        max_flight_capacity)
      = hubTripLhs products h1 h2 max_flight_capacity := by
  apply LinearExpression.eq_of_terms
  rw [LinearExpression.sub_terms]
  rw [foldl_add_terms products
    (fun le p => le.add_variable (mkProductsMoveHubHub h1 h2 p) 1)
    (fun p => [(mkProductsMoveHubHub h1 h2 p, 1)]) (fun e a => rfl) ⟨[]⟩]
  simp [hubTripLhs, flatMap_map_singleton, LinearExpression.add_variable_terms]

theorem trips_hub_to_hub_constraints_eq (products : List Product)
    (hubs : List Hub) (max_flight_capacity : Int) :
    _get_trips_hub_to_hub_constraints products hubs max_flight_capacity
      = ((product2 hubs hubs).filter (fun hh => hh.1 ≠ hh.2)).map
          (fun hh => Constraint.LE_InequalityConstraint
            (hubTripLhs products hh.1 hh.2 max_flight_capacity) 0) := by
  have h := foldl_append_acc (product2 hubs hubs)
    (fun constraints hh =>
      if hh.1 ≠ hh.2 then
        constraints ++ [Constraint.LE_InequalityConstraint
          (LinearExpression.sub
            (products.foldl (fun (le : LinearExpression) p =>
              le.add_variable (mkProductsMoveHubHub hh.1 hh.2 p) 1) ⟨[]⟩)
            (LinearExpression.add_variable ⟨[]⟩ (mkFlightsHubHub hh.1 hh.2)
              max_flight_capacity)) 0]
      else constraints)
    (fun hh =>
      if hh.1 ≠ hh.2 then
        [Constraint.LE_InequalityConstraint
          (hubTripLhs products hh.1 hh.2 max_flight_capacity) 0]
      else [])
    (by intro acc hh
        beta_reduce
        by_cases hne : hh.1 ≠ hh.2
        · rw [if_pos hne, if_pos hne, hubTripLhs_fold]
        · rw [if_neg hne, if_neg hne, List.append_nil]) []
  simpa [_get_trips_hub_to_hub_constraints, flatMap_guard_singleton,
    flatMap_ite_nil_singleton] using h

theorem objective_eq (customers : List Customer) (hubs : List Hub)
    (environment : Environment) :
    get_objective customers hubs environment
      = objectiveSpec customers hubs environment := by
  unfold get_objective
  apply LinearExpression.eq_of_terms
  rw [foldl_add_terms (product2 hubs hubs)
    (fun le hh =>
      if hh.1 ≠ hh.2 then
        le.add_variable (mkFlightsHubHub hh.1 hh.2)
          (environment.get_distance hh.1.location hh.2.location)
      else le)
    (fun hh => if hh.1 ≠ hh.2 then
      [(mkFlightsHubHub hh.1 hh.2,
        environment.get_distance hh.1.location hh.2.location)]
      else [])
    (by intro e a; by_cases hh : a.1 ≠ a.2 <;>
      simp [hh, LinearExpression.add_variable_terms])]
  rw [foldl_add_terms (product2 customers hubs)
    (fun le ch => le.add_variable (mkFlightsCustomerHub ch.1 ch.2)
      (environment.get_distance ch.2.location ch.1.location))
    (fun ch => [(mkFlightsCustomerHub ch.1 ch.2,
      environment.get_distance ch.2.location ch.1.location)])
    (fun e a => rfl) ⟨[]⟩]
  simp [objectiveSpec, flatMap_map_singleton, flatMap_guard_singleton,
    flatMap_ite_nil_singleton]

theorem get_trips_fold (solution : List (IntegerVariable × Int))
    (acc : TripsResult) :
    solution.foldl _get_trips_step acc
      = ⟨acc.hub_to_customer ++ solution.filterMap tripsCustomerOf,
         acc.hub_to_hub ++ solution.filterMap tripsHubOf⟩ := by
  induction solution generalizing acc with
  | nil => simp
  | cons vv rest ih =>
    obtain ⟨v, value⟩ := vv
    rw [List.foldl_cons, ih]
    cases v <;> by_cases hz : value ≠ 0 <;>
      simp [_get_trips_step, tripsCustomerOf, tripsHubOf, hz,
        List.filterMap_cons]

theorem get_trips_eq (solution : List (IntegerVariable × Int)) :
    _get_trips solution
      = ⟨solution.filterMap tripsCustomerOf, solution.filterMap tripsHubOf⟩ := by
  simpa [_get_trips] using
    get_trips_fold solution ⟨[], []⟩

theorem demandLhs_eval (c : Customer) (p : Product) (hubs : List Hub)
    (x : IntegerVariable → Int) :
    (demandLhs c p hubs).eval x
      = (hubs.map (fun h => x (mkProductsMoveCustomerHub c h p))).sum := by
  simp [demandLhs, LinearExpression.eval, List.map_map, Function.comp_def]

theorem supply_net_eval (hubs : List Hub) (h : Hub) (p : Product)
    (x : IntegerVariable → Int) :
    ((hubs.flatMap fun h2 =>
        if h2 ≠ h then
          [(mkProductsMoveHubHub h2 h p, (-1 : Int)),
           (mkProductsMoveHubHub h h2 p, 1)]
        else []).map (fun t => t.2 * x t.1)).sum
      = -(((hubs.filter (fun h2 => h2 ≠ h)).map (fun h2 =>
          x (mkProductsMoveHubHub h2 h p) - x (mkProductsMoveHubHub h h2 p))).sum) := by
  induction hubs with
  | nil => rfl
  | cons h2 hubs ih =>
    rw [List.flatMap_cons, List.map_append, List.sum_append, ih,
      List.filter_cons]
    by_cases hh : h2 ≠ h
    · simp [hh]
      ring
    · simp [hh]

theorem supplyLhs_eval (customers : List Customer) (hubs : List Hub) (h : Hub)
    (p : Product) (x : IntegerVariable → Int) :
    (supplyLhs customers hubs h p).eval x
      = (customers.map (fun c => x (mkProductsMoveCustomerHub c h p))).sum
        - ((hubs.filter (fun h2 => h2 ≠ h)).map (fun h2 =>
            x (mkProductsMoveHubHub h2 h p)
              - x (mkProductsMoveHubHub h h2 p))).sum := by
  simp only [supplyLhs, LinearExpression.eval, List.map_append, List.sum_append]
  rw [supply_net_eval, List.map_map]
  simp only [Function.comp_def, one_mul]
  rw [sub_eq_add_neg]

theorem customerTripLhs_eval (products : List Product) (c : Customer) (h : Hub)
    (max_flight_capacity : Int) (x : IntegerVariable → Int) :
    (customerTripLhs products c h max_flight_capacity).eval x
      = (products.map (fun p => x (mkProductsMoveCustomerHub c h p))).sum
        - max_flight_capacity * x (mkFlightsCustomerHub c h) := by
  simp [customerTripLhs, LinearExpression.eval, List.map_append, List.map_map,
    Function.comp_def, sub_eq_add_neg, neg_mul]

theorem hubTripLhs_eval (products : List Product) (h1 h2 : Hub)
    (max_flight_capacity : Int) (x : IntegerVariable → Int) :
    (hubTripLhs products h1 h2 max_flight_capacity).eval x
      = (products.map (fun p => x (mkProductsMoveHubHub h1 h2 p))).sum
        - max_flight_capacity * x (mkFlightsHubHub h1 h2) := by
  simp [hubTripLhs, LinearExpression.eval, List.map_append, List.map_map,
    Function.comp_def, sub_eq_add_neg, neg_mul]

theorem objectiveSpec_eval (customers : List Customer) (hubs : List Hub)
    (environment : Environment) (x : IntegerVariable → Int) :
    (objectiveSpec customers hubs environment).eval x
      = ((product2 customers hubs).map (fun ch =>
          environment.get_distance ch.2.location ch.1.location
            * x (mkFlightsCustomerHub ch.1 ch.2))).sum
        + (((product2 hubs hubs).filter (fun hh => hh.1 ≠ hh.2)).map (fun hh =>
            environment.get_distance hh.1.location hh.2.location
              * x (mkFlightsHubHub hh.1 hh.2))).sum := by
  simp [objectiveSpec, LinearExpression.eval, List.map_append, List.map_map,
    Function.comp_def]

/-! Concrete problem instances used by witnesses and counterexamples. -/

/-- A customer demanding 7 units of product 0. -/
def cSeven : Customer := { location := 0, demand := [(0, 7)] }

/-- A customer whose demand mapping contains product 0 with quantity 0. -/
def cZero : Customer := { location := 2, demand := [(0, 0)] }

/-- A customer with an empty demand mapping. -/
def cNone : Customer := { location := 4, demand := [] }

/-- A hub stocking 10 units of product 0. -/
def hubA : Hub := { location := 1, stock := [(0, 10)] }

/-- A hub with empty stock. -/
def hubB : Hub := { location := 3, stock := [] }

/-- An assignment giving every variable the value 5. -/
def xFive : IntegerVariable → Int := fun _ => 5

/-- An assignment giving every `ProductsMoveCustomerHub` variable the value 7
and every other variable 0. -/
def xSeven : IntegerVariable → Int := fun v =>
  match v with
  | .ProductsMoveCustomerHub _ _ _ _ _ => 7
  | _ => 0

/-! The claims. -/

/-- Claim C1, counterexample: the demand-satisfaction family does not contain
exactly one constraint per (customer, product) pair with nonzero demand. For a
customer whose demand mapping stores quantity 0 for product 0, there are no
pairs with nonzero demand, yet `_get_demand_constraints` (which keys on mapping
membership, not on a nonzero value) produces one constraint. -/
theorem demand_constraints_not_per_nonzero_pair :
    (_get_demand_constraints [cZero] [0] [hubA]).length = 1
    ∧ ((product2 [cZero] [(0 : Product)]).filter
        (fun cp => cp.1.demandVal cp.2 ≠ 0)).length = 0
    ∧ cZero.demandVal 0 = 0 := by decide

/-- Claim C1 (amended): for every built model, the demand-satisfaction family
contains exactly one equality constraint per (customer, product) pair whose
product is present in the customer's demand mapping (even when the stored
demand is zero) — never an inequality — and that constraint states that the sum
over all hubs of `ProductsMoveCustomerHub(customer, hub, product)` equals
`customer.demand[product]`. -/
theorem demand_constraints_per_demand_key (customers : List Customer)
    (products : List Product) (hubs : List Hub) :
    _get_demand_constraints customers products hubs
      = ((product2 customers products).filter
          (fun cp => cp.1.demandMem cp.2)).map
          (fun cp => Constraint.EqualityConstraint (demandLhs cp.1 cp.2 hubs)
            (cp.1.demandVal cp.2))
    ∧ ∀ (c : Customer) (p : Product) (x : IntegerVariable → Int),
        (demandLhs c p hubs).eval x
          = (hubs.map (fun h => x (mkProductsMoveCustomerHub c h p))).sum :=
  ⟨demand_constraints_eq customers products hubs,
   fun c p x => demandLhs_eval c p hubs x⟩

/-- Claim C2: for every built model there is exactly one supply-balance
constraint per (hub, product) pair — an upper-bound inequality with right side
`hub.get_available_items(product)` — whose left side evaluates to the sum over
customers of `ProductsMoveCustomerHub(customer, hub, product)` minus the net
hub-to-hub inflow (the sum over sibling hubs of inbound minus outbound
`ProductsMoveHubHub` flow). -/
theorem supply_constraints_per_hub_product (customers : List Customer)
    (products : List Product) (hubs : List Hub) :
    _get_supply_constraints customers products hubs
      = (product2 hubs products).map (fun hp =>
          Constraint.LE_InequalityConstraint (supplyLhs customers hubs hp.1 hp.2)
            (hp.1.get_available_items hp.2))
    ∧ ∀ (h : Hub) (p : Product) (x : IntegerVariable → Int),
        (supplyLhs customers hubs h p).eval x
          = (customers.map (fun c => x (mkProductsMoveCustomerHub c h p))).sum
            - ((hubs.filter (fun h2 => h2 ≠ h)).map (fun h2 =>
                x (mkProductsMoveHubHub h2 h p)
                  - x (mkProductsMoveHubHub h h2 p))).sum :=
  ⟨supply_constraints_eq customers products hubs,
   fun h p x => supplyLhs_eval customers hubs h p x⟩

/-- Claim C3: for every built model there is exactly one customer-trip-capacity
constraint per (customer, hub) pair, stating that the sum over products of
`ProductsMoveCustomerHub(customer, hub, product)` minus `max_flight_capacity`
times `FlightsCustomerHub(customer, hub)` is at most 0, and exactly one
hub-to-hub-trip-capacity constraint per ordered pair of distinct hubs, stating
that the sum over products of `ProductsMoveHubHub(hub1, hub2, product)` minus
`max_flight_capacity` times `FlightsHubHub(hub1, hub2)` is at most 0 — with the
same single scalar `max_flight_capacity` in both families. -/
theorem trip_capacity_constraints_spec (customers : List Customer)
    (products : List Product) (hubs : List Hub) (max_flight_capacity : Int) :
    _get_trips_constraints customers products hubs max_flight_capacity
      = (product2 customers hubs).map (fun ch =>
          Constraint.LE_InequalityConstraint
            (customerTripLhs products ch.1 ch.2 max_flight_capacity) 0)
    ∧ _get_trips_hub_to_hub_constraints products hubs max_flight_capacity
      = ((product2 hubs hubs).filter (fun hh => hh.1 ≠ hh.2)).map (fun hh =>
          Constraint.LE_InequalityConstraint
            (hubTripLhs products hh.1 hh.2 max_flight_capacity) 0)
    ∧ (∀ (c : Customer) (h : Hub) (x : IntegerVariable → Int),
        (customerTripLhs products c h max_flight_capacity).eval x
          = (products.map (fun p => x (mkProductsMoveCustomerHub c h p))).sum
            - max_flight_capacity * x (mkFlightsCustomerHub c h))
    ∧ (∀ (h1 h2 : Hub) (x : IntegerVariable → Int),
        (hubTripLhs products h1 h2 max_flight_capacity).eval x
          = (products.map (fun p => x (mkProductsMoveHubHub h1 h2 p))).sum
            - max_flight_capacity * x (mkFlightsHubHub h1 h2)) :=
  ⟨trips_constraints_eq customers products hubs max_flight_capacity,
   trips_hub_to_hub_constraints_eq products hubs max_flight_capacity,
   fun c h x => customerTripLhs_eval products c h max_flight_capacity x,
   fun h1 h2 x => hubTripLhs_eval products h1 h2 max_flight_capacity x⟩

theorem product2_nil_left (bs : List β) : product2 ([] : List α) bs = [] := rfl

theorem product2_nil_right (as : List α) : product2 as ([] : List β) = [] := by
  simp [product2]

theorem product3_nil_mid (as : List α) (cs : List γ) :
    product3 as ([] : List β) cs = [] := by
  simp [product3]

theorem product3_nil_right (as : List α) (bs : List β) :
    product3 as bs ([] : List γ) = [] := by
  simp [product3]

/-- Claim C4: for every built model, the objective is exactly the sum over all
(customer, hub) pairs of `distance(hub, customer)` times
`FlightsCustomerHub(customer, hub)` plus the sum over ordered pairs of distinct
hubs of `distance(hub1, hub2)` times `FlightsHubHub(hub1, hub2)`, each distance
obtained from the `Environment` in exactly that argument order; if customers or
hubs are empty the corresponding sum is the zero expression. -/
theorem objective_distance_weighted (customers : List Customer)
    (hubs : List Hub) (environment : Environment) :
    get_objective customers hubs environment
      = objectiveSpec customers hubs environment
    ∧ (∀ x : IntegerVariable → Int,
        (get_objective customers hubs environment).eval x
          = ((product2 customers hubs).map (fun ch =>
              environment.get_distance ch.2.location ch.1.location
                * x (mkFlightsCustomerHub ch.1 ch.2))).sum
            + (((product2 hubs hubs).filter (fun hh => hh.1 ≠ hh.2)).map (fun hh =>
                environment.get_distance hh.1.location hh.2.location
                  * x (mkFlightsHubHub hh.1 hh.2))).sum)
    ∧ get_objective [] hubs environment
        = ⟨((product2 hubs hubs).filter (fun hh => hh.1 ≠ hh.2)).map (fun hh =>
            (mkFlightsHubHub hh.1 hh.2,
             environment.get_distance hh.1.location hh.2.location))⟩
    ∧ get_objective customers [] environment = ⟨[]⟩ := by
  refine ⟨objective_eq customers hubs environment, ?_, ?_, ?_⟩
  · intro x
    rw [objective_eq]
    exact objectiveSpec_eval customers hubs environment x
  · rw [objective_eq]
    simp [objectiveSpec, product2_nil_left]
  · rw [objective_eq]
    simp [objectiveSpec, product2_nil_right, product2_nil_left]

/-- Claim C9: the built model's constraint list is exactly the concatenation of
the demand-satisfaction, supply-balance, customer-trip-capacity and
hub-to-hub-trip-capacity families in that fixed order, and its variable list is
exactly the flights-customer-hub, products-move-customer-hub, flights-hub-hub
and products-move-hub-hub catalogs in that fixed order. -/
theorem model_layout (customers : List Customer) (hubs : List Hub)
    (products : List Product) (max_flight_capacity : Int)
    (environment : Environment) :
    (SolveProductTrips.model customers hubs products max_flight_capacity
        environment).constraints
      = ((product2 customers products).filter (fun cp => cp.1.demandMem cp.2)).map
          (fun cp => Constraint.EqualityConstraint (demandLhs cp.1 cp.2 hubs)
            (cp.1.demandVal cp.2))
        ++ (product2 hubs products).map (fun hp =>
            Constraint.LE_InequalityConstraint
              (supplyLhs customers hubs hp.1 hp.2)
              (hp.1.get_available_items hp.2))
        ++ (product2 customers hubs).map (fun ch =>
            Constraint.LE_InequalityConstraint
              (customerTripLhs products ch.1 ch.2 max_flight_capacity) 0)
        ++ ((product2 hubs hubs).filter (fun hh => hh.1 ≠ hh.2)).map (fun hh =>
            Constraint.LE_InequalityConstraint
              (hubTripLhs products hh.1 hh.2 max_flight_capacity) 0)
    ∧ (SolveProductTrips.model customers hubs products max_flight_capacity
        environment).decision_variables
      = (product2 customers hubs).map (fun ch => mkFlightsCustomerHub ch.1 ch.2)
        ++ (product3 customers hubs products).map (fun t =>
            mkProductsMoveCustomerHub t.1 t.2.1 t.2.2)
        ++ ((product2 hubs hubs).filter (fun hh => hh.1 ≠ hh.2)).map (fun hh =>
            mkFlightsHubHub hh.1 hh.2)
        ++ ((product3 hubs hubs products).filter (fun t => t.1 ≠ t.2.1)).map
            (fun t => mkProductsMoveHubHub t.1 t.2.1 t.2.2) := by
  constructor
  · show get_constraints customers hubs products max_flight_capacity = _
    rw [get_constraints, demand_constraints_eq, supply_constraints_eq,
      trips_constraints_eq, trips_hub_to_hub_constraints_eq]
  · rfl

theorem mem_product3 {as : List α} {bs : List β} {cs : List γ} {a : α} {b : β}
    {c : γ} : (a, b, c) ∈ product3 as bs cs ↔ a ∈ as ∧ b ∈ bs ∧ c ∈ cs := by
  simp only [product3, List.mem_flatMap, List.mem_map, Prod.mk.injEq]
  constructor
  · rintro ⟨a', ha, b', hb, c', hc, rfl, rfl, rfl⟩
    exact ⟨ha, hb, hc⟩
  · rintro ⟨ha, hb, hc⟩
    exact ⟨a, ha, b, hb, c, hc, rfl, rfl, rfl⟩

/-- Every member of `get_variables` is one of the four catalog constructions,
with in-range indices and distinct hubs for the hub-to-hub families. -/
theorem mem_get_variables_cases (v : IntegerVariable) (customers : List Customer)
    (hubs : List Hub) (products : List Product)
    (hv : v ∈ get_variables customers hubs products) :
    (∃ c h, c ∈ customers ∧ h ∈ hubs ∧ v = mkFlightsCustomerHub c h)
    ∨ (∃ c h p, c ∈ customers ∧ h ∈ hubs ∧ p ∈ products
        ∧ v = mkProductsMoveCustomerHub c h p)
    ∨ (∃ h1 h2, h1 ∈ hubs ∧ h2 ∈ hubs ∧ h1 ≠ h2 ∧ v = mkFlightsHubHub h1 h2)
    ∨ (∃ h1 h2 p, h1 ∈ hubs ∧ h2 ∈ hubs ∧ h1 ≠ h2 ∧ p ∈ products
        ∧ v = mkProductsMoveHubHub h1 h2 p) := by
  simp only [get_variables, List.mem_append] at hv
  rcases hv with ((h1 | h2) | h3) | h4
  · left
    simp only [_get_n_flights_variables, List.mem_map] at h1
    obtain ⟨⟨c, h⟩, hch, rfl⟩ := h1
    obtain ⟨hc, hh⟩ := mem_product2.mp hch
    exact ⟨c, h, hc, hh, rfl⟩
  · right; left
    simp only [_get_n_products_move_variables, List.mem_map] at h2
    obtain ⟨⟨c, h, p⟩, ht, rfl⟩ := h2
    obtain ⟨hc, hh, hp⟩ := mem_product3.mp ht
    exact ⟨c, h, p, hc, hh, hp, rfl⟩
  · right; right; left
    simp only [_get_n_flights_hub_to_hub, List.mem_map] at h3
    obtain ⟨⟨h1, h2⟩, hf, rfl⟩ := h3
    rw [List.mem_filter] at hf
    obtain ⟨hmem, hdec⟩ := hf
    obtain ⟨hh1, hh2⟩ := mem_product2.mp hmem
    exact ⟨h1, h2, hh1, hh2, of_decide_eq_true hdec, rfl⟩
  · right; right; right
    simp only [_get_n_products_move_hub_to_hub, List.mem_map] at h4
    obtain ⟨⟨h1, h2, p⟩, hf, rfl⟩ := h4
    rw [List.mem_filter] at hf
    obtain ⟨hmem, hdec⟩ := hf
    obtain ⟨hh1, hh2, hp⟩ := mem_product3.mp hmem
    exact ⟨h1, h2, p, hh1, hh2, of_decide_eq_true hdec, hp, rfl⟩

/-- The upper bound written by `_get_n_products_move_variables` —
`customer.demand[product] if product in customer.demand else 0` — equals the
total demand lookup with default 0. -/
theorem demand_upper_value (c : Customer) (p : Product) :
    (if c.demandMem p then c.demandVal p else 0) = c.demandVal p := by
  by_cases h : c.demandMem p
  · simp [h]
  · have hn : c.demand.lookup p = none := by
      cases hl : c.demand.lookup p with
      | none => rfl
      | some q => simp [Customer.demandMem, hl] at h
    simp [h, Customer.demandVal, hn]

/-- Claim C5: in every built model every decision variable has lower bound 0,
every `ProductsMoveCustomerHub` variable's upper bound is the customer's demand
for the product (0 when absent from the demand mapping), and no `FlightsHubHub`
or `ProductsMoveHubHub` variable pairs a hub with itself. -/
theorem variable_bounds_invariant (customers : List Customer) (hubs : List Hub)
    (products : List Product) :
    (∀ v ∈ get_variables customers hubs products, v.lower_bound = 0)
    ∧ (∀ (lb : Int) (ub : Option Int) (c : Customer) (h : Hub) (p : Product),
        IntegerVariable.ProductsMoveCustomerHub lb ub c h p
            ∈ get_variables customers hubs products
          → ub = some (c.demandVal p))
    ∧ (∀ (lb : Int) (ub : Option Int) (h1 h2 : Hub),
        IntegerVariable.FlightsHubHub lb ub h1 h2
            ∈ get_variables customers hubs products
          → h1 ≠ h2)
    ∧ (∀ (lb : Int) (ub : Option Int) (h1 h2 : Hub) (p : Product),
        IntegerVariable.ProductsMoveHubHub lb ub h1 h2 p
            ∈ get_variables customers hubs products
          → h1 ≠ h2) := by
  refine ⟨?_, ?_, ?_, ?_⟩
  · intro v hv
    rcases mem_get_variables_cases v customers hubs products hv with
      ⟨c, h, _, _, rfl⟩ | ⟨c, h, p, _, _, _, rfl⟩ | ⟨h1, h2, _, _, _, rfl⟩ |
      ⟨h1, h2, p, _, _, _, _, rfl⟩ <;> rfl
  · intro lb ub c h p hm
    rcases mem_get_variables_cases _ customers hubs products hm with
      ⟨c', h', _, _, heq⟩ | ⟨c', h', p', _, _, _, heq⟩ |
      ⟨h1, h2, _, _, _, heq⟩ | ⟨h1, h2, p', _, _, _, _, heq⟩
    · simp [mkFlightsCustomerHub] at heq
    · simp only [mkProductsMoveCustomerHub, IntegerVariable.ProductsMoveCustomerHub.injEq]
        at heq
      obtain ⟨-, hub, hc, -, hp⟩ := heq
      subst hc; subst hp
      rw [hub, demand_upper_value]
    · simp [mkFlightsHubHub] at heq
    · simp [mkProductsMoveHubHub] at heq
  · intro lb ub h1 h2 hm
    rcases mem_get_variables_cases _ customers hubs products hm with
      ⟨c', h', _, _, heq⟩ | ⟨c', h', p', _, _, _, heq⟩ |
      ⟨h1', h2', _, _, hne, heq⟩ | ⟨h1', h2', p', _, _, _, _, heq⟩
    · simp [mkFlightsCustomerHub] at heq
    · simp [mkProductsMoveCustomerHub] at heq
    · simp only [mkFlightsHubHub, IntegerVariable.FlightsHubHub.injEq] at heq
      obtain ⟨-, -, hh1, hh2⟩ := heq
      subst hh1; subst hh2
      exact hne
    · simp [mkProductsMoveHubHub] at heq
  · intro lb ub h1 h2 p hm
    rcases mem_get_variables_cases _ customers hubs products hm with
      ⟨c', h', _, _, heq⟩ | ⟨c', h', p', _, _, _, heq⟩ |
      ⟨h1', h2', _, _, _, heq⟩ | ⟨h1', h2', p', _, _, hne, _, heq⟩
    · simp [mkFlightsCustomerHub] at heq
    · simp [mkProductsMoveCustomerHub] at heq
    · simp [mkFlightsHubHub] at heq
    · simp only [mkProductsMoveHubHub, IntegerVariable.ProductsMoveHubHub.injEq]
        at heq
      obtain ⟨-, -, hh1, hh2, -⟩ := heq
      subst hh1; subst hh2
      exact hne

/-- Claim C5, witness at a concrete instance: one customer demanding 7 of
product 0 and two distinct hubs. -/
theorem variable_bounds_invariant_witness :
    (mkFlightsCustomerHub cSeven hubA).lower_bound = 0
    ∧ (some 7 : Option Int) = some (cSeven.demandVal 0)
    ∧ hubA ≠ hubB :=
  ⟨(variable_bounds_invariant [cSeven] [hubA, hubB] [0]).1
      (mkFlightsCustomerHub cSeven hubA) (by decide),
   (variable_bounds_invariant [cSeven] [hubA, hubB] [0]).2.1 0 (some 7) cSeven
      hubA 0 (by decide),
   (variable_bounds_invariant [cSeven] [hubA, hubB] [0]).2.2.1 0 none hubA hubB
      (by decide)⟩

/-- Claim C10: only `ProductsMoveCustomerHub` variables carry a finite upper
bound — every `FlightsCustomerHub`, `FlightsHubHub` and `ProductsMoveHubHub`
variable is created with lower bound 0 and no upper bound, so any variable with
an upper bound is a `ProductsMoveCustomerHub`. -/
theorem upper_bounds_only_products_move (customers : List Customer)
    (hubs : List Hub) (products : List Product) :
    (∀ (lb : Int) (ub : Option Int) (c : Customer) (h : Hub),
        IntegerVariable.FlightsCustomerHub lb ub c h
            ∈ get_variables customers hubs products
          → lb = 0 ∧ ub = none)
    ∧ (∀ (lb : Int) (ub : Option Int) (h1 h2 : Hub),
        IntegerVariable.FlightsHubHub lb ub h1 h2
            ∈ get_variables customers hubs products
          → lb = 0 ∧ ub = none)
    ∧ (∀ (lb : Int) (ub : Option Int) (h1 h2 : Hub) (p : Product),
        IntegerVariable.ProductsMoveHubHub lb ub h1 h2 p
            ∈ get_variables customers hubs products
          → lb = 0 ∧ ub = none)
    ∧ (∀ v ∈ get_variables customers hubs products,
        v.upper_bound ≠ none
          → ∃ (lb : Int) (ub : Option Int) (c : Customer) (h : Hub)
              (p : Product),
              v = IntegerVariable.ProductsMoveCustomerHub lb ub c h p) := by
  refine ⟨?_, ?_, ?_, ?_⟩
  · intro lb ub c h hm
    rcases mem_get_variables_cases _ customers hubs products hm with
      ⟨c', h', _, _, heq⟩ | ⟨c', h', p', _, _, _, heq⟩ |
      ⟨h1', h2', _, _, _, heq⟩ | ⟨h1', h2', p', _, _, _, _, heq⟩
    · simp only [mkFlightsCustomerHub, IntegerVariable.FlightsCustomerHub.injEq]
        at heq
      exact ⟨heq.1, heq.2.1⟩
    · simp [mkProductsMoveCustomerHub] at heq
    · simp [mkFlightsHubHub] at heq
    · simp [mkProductsMoveHubHub] at heq
  · intro lb ub h1 h2 hm
    rcases mem_get_variables_cases _ customers hubs products hm with
      ⟨c', h', _, _, heq⟩ | ⟨c', h', p', _, _, _, heq⟩ |
      ⟨h1', h2', _, _, _, heq⟩ | ⟨h1', h2', p', _, _, _, _, heq⟩
    · simp [mkFlightsCustomerHub] at heq
    · simp [mkProductsMoveCustomerHub] at heq
    · simp only [mkFlightsHubHub, IntegerVariable.FlightsHubHub.injEq] at heq
      exact ⟨heq.1, heq.2.1⟩
    · simp [mkProductsMoveHubHub] at heq
  · intro lb ub h1 h2 p hm
    rcases mem_get_variables_cases _ customers hubs products hm with
      ⟨c', h', _, _, heq⟩ | ⟨c', h', p', _, _, _, heq⟩ |
      ⟨h1', h2', _, _, _, heq⟩ | ⟨h1', h2', p', _, _, _, _, heq⟩
    · simp [mkFlightsCustomerHub] at heq
    · simp [mkProductsMoveCustomerHub] at heq
    · simp [mkFlightsHubHub] at heq
    · simp only [mkProductsMoveHubHub, IntegerVariable.ProductsMoveHubHub.injEq]
        at heq
      exact ⟨heq.1, heq.2.1⟩
  · intro v hv hub
    rcases mem_get_variables_cases v customers hubs products hv with
      ⟨c', h', _, _, rfl⟩ | ⟨c', h', p', _, _, _, rfl⟩ |
      ⟨h1', h2', _, _, _, rfl⟩ | ⟨h1', h2', p', _, _, _, _, rfl⟩
    · exact absurd rfl hub
    · exact ⟨0, _, c', h', p', rfl⟩
    · exact absurd rfl hub
    · exact absurd rfl hub

/-- Claim C10, witness at a concrete instance: the flights variable has bounds
(0, none) and the only variable carrying an upper bound is a
`ProductsMoveCustomerHub`. -/
theorem upper_bounds_only_products_move_witness :
    ((0 : Int) = 0 ∧ (none : Option Int) = none)
    ∧ ∃ (lb : Int) (ub : Option Int) (c : Customer) (h : Hub) (p : Product),
        mkProductsMoveCustomerHub cSeven hubA 0
          = IntegerVariable.ProductsMoveCustomerHub lb ub c h p :=
  ⟨(upper_bounds_only_products_move [cSeven] [hubA, hubB] [0]).1 0 none cSeven
      hubA (by decide),
   (upper_bounds_only_products_move [cSeven] [hubA, hubB] [0]).2.2.2
      (mkProductsMoveCustomerHub cSeven hubA 0) (by decide) (by decide)⟩

/-- Claim C6: for every solver variable→value mapping, the interpreter produces
exactly one hub→customer `Trip` per non-zero `ProductsMoveCustomerHub` entry and
exactly one hub→hub `Trip` per non-zero `ProductsMoveHubHub` entry, in mapping
order, with origin/destination/product/quantity read verbatim from the
variable's stored indices and the value; `FlightsCustomerHub` and
`FlightsHubHub` entries and zero-valued entries never produce trips. -/
theorem solution_interpreter_spec (solution : List (IntegerVariable × Int)) :
    _get_trips solution
      = ⟨solution.filterMap tripsCustomerOf, solution.filterMap tripsHubOf⟩
    ∧ (∀ vv ∈ solution, vv.2 = 0
        → tripsCustomerOf vv = none ∧ tripsHubOf vv = none)
    ∧ (∀ (lb : Int) (ub : Option Int) (c : Customer) (h : Hub) (value : Int),
        tripsCustomerOf (IntegerVariable.FlightsCustomerHub lb ub c h, value) = none
        ∧ tripsHubOf (IntegerVariable.FlightsCustomerHub lb ub c h, value) = none)
    ∧ (∀ (lb : Int) (ub : Option Int) (h1 h2 : Hub) (value : Int),
        tripsCustomerOf (IntegerVariable.FlightsHubHub lb ub h1 h2, value) = none
        ∧ tripsHubOf (IntegerVariable.FlightsHubHub lb ub h1 h2, value) = none)
    ∧ (∀ (lb : Int) (ub : Option Int) (c : Customer) (h : Hub) (p : Product)
          (value : Int), value ≠ 0
        → tripsCustomerOf (IntegerVariable.ProductsMoveCustomerHub lb ub c h p,
              value)
            = some { origin := Place.hub h, destination := Place.customer c,
                     product_type := p, product_quantity := value }
          ∧ tripsHubOf (IntegerVariable.ProductsMoveCustomerHub lb ub c h p,
              value) = none)
    ∧ (∀ (lb : Int) (ub : Option Int) (h1 h2 : Hub) (p : Product) (value : Int),
        value ≠ 0
        → tripsHubOf (IntegerVariable.ProductsMoveHubHub lb ub h1 h2 p, value)
            = some { origin := Place.hub h1, destination := Place.hub h2,
                     product_type := p, product_quantity := value }
          ∧ tripsCustomerOf (IntegerVariable.ProductsMoveHubHub lb ub h1 h2 p,
              value) = none) := by
  refine ⟨get_trips_eq solution, ?_, ?_, ?_, ?_, ?_⟩
  · rintro ⟨v, value⟩ - h0
    have hz : value = 0 := h0
    cases v <;> simp [tripsCustomerOf, tripsHubOf, hz]
  · intro lb ub c h value
    exact ⟨rfl, rfl⟩
  · intro lb ub h1 h2 value
    exact ⟨rfl, rfl⟩
  · intro lb ub c h p value hz
    constructor
    · simp [tripsCustomerOf, hz]
    · rfl
  · intro lb ub h1 h2 p value hz
    constructor
    · simp [tripsHubOf, hz]
    · rfl

/-- Claim C6, witness: a single non-zero `ProductsMoveCustomerHub` entry yields
exactly its verbatim trip. -/
theorem solution_interpreter_spec_witness :
    _get_trips [(mkProductsMoveCustomerHub cSeven hubA 0, (7 : Int))]
      = ⟨[(mkProductsMoveCustomerHub cSeven hubA 0, (7 : Int))].filterMap
          tripsCustomerOf,
         [(mkProductsMoveCustomerHub cSeven hubA 0, (7 : Int))].filterMap
          tripsHubOf⟩
    ∧ tripsCustomerOf (IntegerVariable.ProductsMoveCustomerHub 0 (some 7) cSeven
          hubA 0, 7)
        = some { origin := Place.hub hubA, destination := Place.customer cSeven,
                 product_type := 0, product_quantity := 7 } :=
  ⟨(solution_interpreter_spec
      [(mkProductsMoveCustomerHub cSeven hubA 0, (7 : Int))]).1,
   ((solution_interpreter_spec []).2.2.2.2.1 0 (some 7) cSeven hubA 0 7
      (by decide)).1⟩

/-- Claim C7, counterexample: with zero customers but two distinct hubs and one
product, the built model's variable set and constraint set are not empty (the
hub-to-hub families survive), and interpreting a solution that assigns 5 to
every variable yields a non-empty hub→hub trip list. -/
theorem empty_instance_counterexample :
    (get_variables [] [hubA, hubB] [0]).length = 4
    ∧ (get_constraints [] [hubA, hubB] [0] 5).length = 4
    ∧ (_get_trips ((get_variables [] [hubA, hubB] [0]).map
        (fun v => (v, xFive v)))).hub_to_hub ≠ [] := by decide

/-- Claim C7 (amended): model construction is total, so it succeeds on every
degenerate instance. With zero hubs the variable set is empty, and with zero
hubs and zero customers the constraint set is empty as well; interpreting any
solution over the model's variables yields empty trip lists when there are zero
hubs or zero products (with zero customers alone, hub-to-hub variables can
still produce trips). -/
theorem empty_instance_behavior (customers : List Customer) (hubs : List Hub)
    (products : List Product) (max_flight_capacity : Int)
    (x : IntegerVariable → Int) :
    get_variables customers [] products = []
    ∧ get_constraints [] [] products max_flight_capacity = []
    ∧ _get_trips ((get_variables customers [] products).map
          (fun v => (v, x v))) = ⟨[], []⟩
    ∧ _get_trips ((get_variables customers hubs []).map
          (fun v => (v, x v))) = ⟨[], []⟩ := by
  have hvars : get_variables customers [] products = [] := by
    simp [get_variables, _get_n_flights_variables, _get_n_products_move_variables,
      _get_n_flights_hub_to_hub, _get_n_products_move_hub_to_hub,
      product2_nil_right, product2_nil_left, product3_nil_mid]
  refine ⟨hvars, rfl, ?_, ?_⟩
  · rw [hvars]; rfl
  · have hnone : ∀ v ∈ get_variables customers hubs [],
        tripsCustomerOf (v, x v) = none ∧ tripsHubOf (v, x v) = none := by
      intro v hv
      rcases mem_get_variables_cases v customers hubs [] hv with
        ⟨c, h, -, -, rfl⟩ | ⟨c, h, p, -, -, hp, rfl⟩ | ⟨h1, h2, -, -, -, rfl⟩ |
        ⟨h1, h2, p, -, -, -, hp, rfl⟩
      · exact ⟨rfl, rfl⟩
      · cases hp
      · exact ⟨rfl, rfl⟩
      · cases hp
    rw [get_trips_eq]
    have h1 : ((get_variables customers hubs []).map
        (fun v => (v, x v))).filterMap tripsCustomerOf = [] := by
      rw [List.filterMap_map]
      exact List.filterMap_eq_nil_iff.mpr (fun v hv => (hnone v hv).1)
    have h2 : ((get_variables customers hubs []).map
        (fun v => (v, x v))).filterMap tripsHubOf = [] := by
      rw [List.filterMap_map]
      exact List.filterMap_eq_nil_iff.mpr (fun v hv => (hnone v hv).2)
    rw [h1, h2]

/-- When interpreting an assignment over the full variable catalog, the
hub→customer trips are exactly the trips read off the
`ProductsMoveCustomerHub` triples with non-zero assigned value. -/
theorem trips_from_variables (customers : List Customer) (hubs : List Hub)
    (products : List Product) (x : IntegerVariable → Int) :
    (_get_trips ((get_variables customers hubs products).map
        (fun v => (v, x v)))).hub_to_customer
      = (product3 customers hubs products).filterMap (fun t =>
          if x (mkProductsMoveCustomerHub t.1 t.2.1 t.2.2) ≠ 0 then
            some { origin := Place.hub t.2.1,
                   destination := Place.customer t.1,
                   product_type := t.2.2,
                   product_quantity := x (mkProductsMoveCustomerHub t.1 t.2.1 t.2.2) }
          else none) := by
  simp only [get_trips_eq]
  rw [List.filterMap_map, get_variables, List.filterMap_append,
    List.filterMap_append, List.filterMap_append]
  have hA : (_get_n_flights_variables customers hubs).filterMap
      (tripsCustomerOf ∘ fun v => (v, x v)) = [] := by
    apply List.filterMap_eq_nil_iff.mpr
    intro v hv
    simp only [_get_n_flights_variables, List.mem_map] at hv
    obtain ⟨ch, -, rfl⟩ := hv
    rfl
  have hC : (_get_n_flights_hub_to_hub hubs).filterMap
      (tripsCustomerOf ∘ fun v => (v, x v)) = [] := by
    apply List.filterMap_eq_nil_iff.mpr
    intro v hv
    simp only [_get_n_flights_hub_to_hub, List.mem_map] at hv
    obtain ⟨hh, -, rfl⟩ := hv
    rfl
  have hD : (_get_n_products_move_hub_to_hub hubs products).filterMap
      (tripsCustomerOf ∘ fun v => (v, x v)) = [] := by
    apply List.filterMap_eq_nil_iff.mpr
    intro v hv
    simp only [_get_n_products_move_hub_to_hub, List.mem_map] at hv
    obtain ⟨t, -, rfl⟩ := hv
    rfl
  rw [hA, hC, hD, List.nil_append, List.append_nil, List.append_nil]
  rw [_get_n_products_move_variables, List.filterMap_map]
  congr 1

/-- The quantity a triple contributes to the (customer, product) trip total:
the assigned flow when the triple matches, 0 otherwise. -/
def tripContribution (x : IntegerVariable → Int) (c : Customer) (p : Product)
    (t : Customer × Hub × Product) : Int :=
  if t.1 = c ∧ t.2.2 = p then x (mkProductsMoveCustomerHub t.1 t.2.1 t.2.2)
  else 0

theorem sum_filter_trips (l : List (Customer × Hub × Product))
    (x : IntegerVariable → Int) (c : Customer) (p : Product) :
    (((l.filterMap (fun t =>
        if x (mkProductsMoveCustomerHub t.1 t.2.1 t.2.2) ≠ 0 then
          some ({ origin := Place.hub t.2.1,
                  destination := Place.customer t.1,
                  product_type := t.2.2,
                  product_quantity :=
                    x (mkProductsMoveCustomerHub t.1 t.2.1 t.2.2) } : Trip)
        else none)).filter
        (fun t => t.destination = Place.customer c ∧ t.product_type = p)).map
      (fun t => t.product_quantity)).sum
      = (l.map (tripContribution x c p)).sum := by
  rw [sum_map_filter_filterMap]
  apply congrArg List.sum
  apply List.map_congr_left
  intro t _
  by_cases hz : x (mkProductsMoveCustomerHub t.1 t.2.1 t.2.2) = 0
  · simp [hz, tripContribution]
  · by_cases hcp : t.1 = c ∧ t.2.2 = p
    · obtain ⟨h1, h2⟩ := hcp
      rw [h1, h2] at hz
      simp [hz, h1, h2, tripContribution]
    · rcases not_and_or.mp hcp with hne | hne <;>
        simp [hz, tripContribution, hne]

theorem sum_contribution_products (products : List Product)
    (x : IntegerVariable → Int) (c : Customer) (h : Hub) (p : Product)
    (hndp : products.Nodup) (hp : p ∈ products) :
    ((products.map (fun q => ((c, h, q) : Customer × Hub × Product))).map
      (tripContribution x c p)).sum
      = x (mkProductsMoveCustomerHub c h p) := by
  have hz : ∀ q ∈ products, q ≠ p →
      (tripContribution x c p ∘ fun q => ((c, h, q) : Customer × Hub × Product)) q
        = 0 := by
    intro q hq hne
    simp [tripContribution, Function.comp_def, hne]
  rw [List.map_map, sum_single_of_nodup products _ p hndp hp hz]
  simp [tripContribution]

theorem sum_contribution_hubs (hubs : List Hub) (products : List Product)
    (x : IntegerVariable → Int) (c : Customer) (p : Product)
    (hndp : products.Nodup) (hp : p ∈ products) :
    ((hubs.flatMap (fun b => products.map
        (fun q => ((c, b, q) : Customer × Hub × Product)))).map
      (tripContribution x c p)).sum
      = (hubs.map (fun h => x (mkProductsMoveCustomerHub c h p))).sum := by
  induction hubs with
  | nil => rfl
  | cons h hubs ih =>
    rw [List.flatMap_cons, List.map_append, List.sum_append, ih, List.map_cons,
      List.sum_cons, sum_contribution_products products x c h p hndp hp]

theorem sum_contribution_zero (customers : List Customer) (hubs : List Hub)
    (products : List Product) (x : IntegerVariable → Int) (c : Customer)
    (p : Product) (hcustomers : ∀ c2 ∈ customers, c2 ≠ c) :
    ((product3 customers hubs products).map (tripContribution x c p)).sum = 0 := by
  apply List.sum_eq_zero
  intro y hy
  obtain ⟨t, ht, rfl⟩ := List.mem_map.mp hy
  simp only [product3] at ht
  obtain ⟨a, ha, hbq⟩ := List.mem_flatMap.mp ht
  obtain ⟨b, -, hq⟩ := List.mem_flatMap.mp hbq
  obtain ⟨q, -, rfl⟩ := List.mem_map.mp hq
  simp [tripContribution, hcustomers a ha]

theorem sum_contribution_customers (customers : List Customer) (hubs : List Hub)
    (products : List Product) (x : IntegerVariable → Int) (c : Customer)
    (p : Product) (hndc : customers.Nodup) (hndp : products.Nodup)
    (hc : c ∈ customers) (hp : p ∈ products) :
    ((product3 customers hubs products).map (tripContribution x c p)).sum
      = (hubs.map (fun h => x (mkProductsMoveCustomerHub c h p))).sum := by
  induction customers with
  | nil => cases hc
  | cons a customers ih =>
    rw [show product3 (a :: customers) hubs products
        = (hubs.flatMap (fun b => products.map
            (fun q => ((a, b, q) : Customer × Hub × Product))))
          ++ product3 customers hubs products from rfl]
    rw [List.map_append, List.sum_append]
    rcases List.mem_cons.mp hc with rfl | hmemc
    · have hrest : ((product3 customers hubs products).map
          (tripContribution x c p)).sum = 0 := by
        apply sum_contribution_zero
        intro c2 hc2
        rintro rfl
        exact (List.nodup_cons.mp hndc).1 hc2
      rw [hrest, add_zero, sum_contribution_hubs hubs products x c p hndp hp]
    · have hane : a ≠ c := by
        rintro rfl
        exact (List.nodup_cons.mp hndc).1 hmemc
      have hhead : ((hubs.flatMap (fun b => products.map
          (fun q => ((a, b, q) : Customer × Hub × Product)))).map
            (tripContribution x c p)).sum = 0 := by
        apply List.sum_eq_zero
        intro y hy
        obtain ⟨t, ht, rfl⟩ := List.mem_map.mp hy
        obtain ⟨b, -, hq⟩ := List.mem_flatMap.mp ht
        obtain ⟨q, -, rfl⟩ := List.mem_map.mp hq
        simp [tripContribution, hane]
      rw [hhead, zero_add]
      exact ih (List.nodup_cons.mp hndc).2 hmemc

/-- Claim C8, counterexample: the round-trip property fails for a (customer,
product) pair absent from the demand mapping. With a customer whose demand
mapping is empty, every demand-satisfaction constraint (there are none) is
satisfied by the all-5 assignment, yet the hub→customer trip quantities for
that customer and product sum to 5 while the demand is 0. -/
theorem round_trip_counterexample :
    (∀ cstr ∈ _get_demand_constraints [cNone] [0] [hubA], cstr.satisfied xFive)
    ∧ ((((_get_trips ((get_variables [cNone] [hubA] [0]).map
          (fun v => (v, xFive v)))).hub_to_customer.filter
        (fun t => t.destination = Place.customer cNone ∧ t.product_type = 0)).map
      (fun t => t.product_quantity)).sum = 5)
    ∧ cNone.demandVal 0 = 0 := by decide

/-- Claim C8 (amended): for every assignment satisfying the built model's
demand-satisfaction constraints, and for every (customer, product) pair whose
product is present in the customer's demand mapping, summing the quantities of
the interpreter's hub→customer trips for that pair across all hubs yields
exactly the customer's demand (customers and products taken duplicate-free). -/
theorem round_trip_demand (customers : List Customer) (hubs : List Hub)
    (products : List Product) (x : IntegerVariable → Int) (c : Customer)
    (p : Product) (hndc : customers.Nodup) (hndp : products.Nodup)
    (hc : c ∈ customers) (hp : p ∈ products) (hmem : c.demandMem p = true)
    (hsat : ∀ cstr ∈ _get_demand_constraints customers products hubs,
      cstr.satisfied x) :
    (((_get_trips ((get_variables customers hubs products).map
          (fun v => (v, x v)))).hub_to_customer.filter
        (fun t => t.destination = Place.customer c ∧ t.product_type = p)).map
      (fun t => t.product_quantity)).sum = c.demandVal p := by
  have hconstraint : Constraint.EqualityConstraint (demandLhs c p hubs)
      (c.demandVal p) ∈ _get_demand_constraints customers products hubs := by
    rw [demand_constraints_eq]
    refine List.mem_map.mpr ⟨(c, p), ?_, rfl⟩
    rw [List.mem_filter]
    exact ⟨mem_product2.mpr ⟨hc, hp⟩, hmem⟩
  have hsum : (hubs.map (fun h => x (mkProductsMoveCustomerHub c h p))).sum
      = c.demandVal p := by
    have h1 : (demandLhs c p hubs).eval x = c.demandVal p := hsat _ hconstraint
    rw [demandLhs_eval] at h1
    exact h1
  rw [trips_from_variables, sum_filter_trips,
    sum_contribution_customers customers hubs products x c p hndc hndp hc hp]
  exact hsum

/-- Claim C8, witness at a concrete instance: one customer demanding 7 of
product 0, one hub, and the assignment moving exactly 7 units. -/
theorem round_trip_demand_witness :
    (((_get_trips ((get_variables [cSeven] [hubA] [0]).map
          (fun v => (v, xSeven v)))).hub_to_customer.filter
        (fun t => t.destination = Place.customer cSeven ∧ t.product_type = 0)).map
      (fun t => t.product_quantity)).sum = cSeven.demandVal 0 :=
  round_trip_demand [cSeven] [hubA] [0] xSeven cSeven 0 (by decide) (by decide)
    (by decide) (by decide) (by decide) (by decide)

end DroneDelivery
